import Mathlib

/-!
Verification of the irrigation water-rotation scripts.

The development shallowly embeds the two Python scripts of the repository:
`wrs.py` (canal priority resolution and rotation-plan availability) and
`ncd.py` (division containment and nearest-canal ranking).  Tabular data
frames become lists of records, the Python dictionaries built by
`find_main_disty` become association lists with last-binding-wins lookup,
and the unbounded `while` loop becomes a fuel-indexed loop whose outer
`Option` layer records whether the loop terminated within the given fuel
(`none` meaning the fuel ran out, i.e. the Python loop would still be
running).  Geometry operations of the external geopandas and shapely
libraries are abstracted as function parameters; everything written in the
scripts themselves is embedded directly.
-/

/-! ## Static priority taxonomy (wrs.py lines 7 to 21) -/

def PRIORITY_GROUPS : List (String × List String) :=
  [("A", ["A1", "A2"]),
   ("B", ["B1", "B2"]),
   ("C", ["C1", "C2"])]

def CANAL_PRIORITY_MAP : List (String × List String) :=
  [("A1", ["Chamman Disty", "Nal Disty", "Tarinda Disty", "Channa Minor"]),
   ("A2", ["Upper Wah Faquiran Disty", "Lower Wah Faquiran Disty", "Kacha Disty"]),
   ("B1", ["Azim Disty", "Pattan Munara Minor", "Kandera Disty", "Nal Disty"]),
   ("B2", ["Adam Sohaba Disty", "Talla Disty", "Chamman Disty", "Sianwar Minor"]),
   ("C1", ["Naushera Link Disty", "Naushera Minor", "Bagh Minor", "Malu Minor"]),
   ("C2", ["Manthar Disty", "Lakhi Minor", "Sultan Disty"])]

/-! ## find_priority_group (wrs.py lines 23 to 33)

The outer Python loop scans `CANAL_PRIORITY_MAP` in insertion order; on a
membership hit the inner loop scans `PRIORITY_GROUPS` for the enclosing
main group and returns on the first hit.  If the inner loop finds no
enclosing main group the outer loop continues with the next sub-group. -/

def fpgLoop (canal_name : String) : List (String × List String) → Option String × Option String
  | [] => (none, none)
  | (sub_group, canals) :: rest =>
    if canals.contains canal_name then
      match PRIORITY_GROUPS.find? (fun e => e.2.contains sub_group) with
      | some e => (some e.1, some sub_group)
      | none => fpgLoop canal_name rest
    else fpgLoop canal_name rest

def find_priority_group (canal_name : String) : Option String × Option String :=
  fpgLoop canal_name CANAL_PRIORITY_MAP

/-- The first entry of `CANAL_PRIORITY_MAP`, in iteration order, whose canal
list contains the given name. -/
def firstMatch (canal_name : String) : Option (String × List String) :=
  CANAL_PRIORITY_MAP.find? (fun e => e.2.contains canal_name)

/-- The main group enclosing a sub-group, per `PRIORITY_GROUPS` iteration
order. -/
def mainOfSub (sub_group : String) : Option String :=
  (PRIORITY_GROUPS.find? (fun e => e.2.contains sub_group)).map (·.1)

/-! ## Whitespace stripping

Python `str.strip()` removes leading and trailing whitespace (space, tab,
newline, carriage return, vertical tab, form feed).  It is embedded as a
structurally recursive function on the character list so that concrete
instances evaluate inside the kernel. -/

/-- The default whitespace set of Python `str.strip()`. -/
def isPySpace (c : Char) : Bool :=
  c == ' ' || (9 ≤ c.toNat && c.toNat ≤ 13)

/-- Python `str.strip()`. -/
def pyStrip (s : String) : String :=
  ⟨((s.data.dropWhile isPySpace).reverse.dropWhile isPySpace).reverse⟩

/-! ## Channel hierarchy table and find_main_disty (wrs.py lines 60 to 77) -/

/-- One row of the hierarchy data frame, with the three columns read by
`find_main_disty`. -/
structure HierRow where
  CHANNEL_NA : String
  PARENT_CHA : String
  CHANNEL_TY : String
deriving DecidableEq, Repr

/-- Key-value pairs fed to the `parent_map` dictionary: stripped channel
name to stripped parent name, in row order. -/
def parentPairs (df : List HierRow) : List (String × String) :=
  df.map (fun r => (pyStrip r.CHANNEL_NA, pyStrip r.PARENT_CHA))

/-- Key-value pairs fed to the `channel_type_map` dictionary. -/
def typePairs (df : List HierRow) : List (String × String) :=
  df.map (fun r => (pyStrip r.CHANNEL_NA, pyStrip r.CHANNEL_TY))

/-- Python `dict(zip(keys, values))` lookup: on duplicate keys the later
binding wins, hence the search over the reversed pair list. -/
def dictGet (m : List (String × String)) (k : String) : Option String :=
  (m.reverse.find? (fun q => q.1 == k)).map (·.2)

/-- `parent_map[k]`, as an optional lookup. -/
def pm (df : List HierRow) (k : String) : Option String :=
  dictGet (parentPairs df) k

/-- `channel_type_map[k]`, as an optional lookup. -/
def tm (df : List HierRow) (k : String) : Option String :=
  dictGet (typePairs df) k

/-- The `while current in parent_map` loop of `find_main_disty`, indexed by
fuel.  `none` means the fuel was exhausted before the loop finished (the
Python loop would still be running); `some r` means the loop returned `r`
(`r = none` is the Python `return None`). -/
def findDistyLoop (df : List HierRow) : Nat → String → Option (Option String)
  | 0, _ => none
  | fuel + 1, current =>
    match pm df current with
    | none => some none
    | some parent =>
      if tm df parent = some "D" then some (some parent)
      else if parent = current ∨ pm df parent = none then some none
      else findDistyLoop df fuel parent

/-- `find_main_disty(canal_name, df)`: the entry point strips the canal
name and runs the loop. -/
def find_main_disty (canal_name : String) (df : List HierRow) (fuel : Nat) : Option (Option String) :=
  findDistyLoop df fuel (pyStrip canal_name)

/-- The chain of iterated parents of a name under the parent map:
position 0 is the name itself, position `n + 1` the parent of position `n`
(absent once the chain leaves the map). -/
def parentChain (df : List HierRow) (c : String) : Nat → Option String
  | 0 => some c
  | n + 1 => (parentChain df c n).bind (pm df)

/-! ## Rotation plan and get_current_week_water_availability (wrs.py lines 79 to 105)

A rotation row carries the two date columns (already parsed day-first at
load time, `none` for an unparsable date, wrs.py lines 47 to 56) and the
remaining cells as column-name to value pairs; a cell value is the result
of `pd.to_numeric(..., errors="coerce")`: `some n` for a numeric entry and
`none` for a blank or non-numeric one. -/

structure Date where
  year : Nat
  month : Nat
  day : Nat
deriving DecidableEq, Repr

/-- Chronological comparison of `datetime.date` values. -/
def dateLe (a b : Date) : Bool :=
  Nat.blt a.year b.year ||
    (Nat.beq a.year b.year &&
      (Nat.blt a.month b.month ||
        (Nat.beq a.month b.month && Nat.ble a.day b.day)))

/-- Two-digit zero padding, as in `strftime` fields `%d` and `%m`. -/
def pad2 (n : Nat) : String :=
  if n < 10 then "0" ++ toString n else toString n

/-- Four-digit zero padding, as in the `strftime` field `%Y`. -/
def pad4 (n : Nat) : String :=
  if n < 10 then "000" ++ toString n
  else if n < 100 then "00" ++ toString n
  else if n < 1000 then "0" ++ toString n
  else toString n

/-- `date.strftime("%d-%m-%Y")`. -/
def fmtDMY (d : Date) : String :=
  pad2 d.day ++ "-" ++ pad2 d.month ++ "-" ++ pad4 d.year

structure RotRow where
  startDate : Option Date
  endDate : Option Date
  cells : List (String × Option Int)
deriving DecidableEq, Repr

/-- Python `col in row`: the column label occurs in the row index. -/
def rowHasCol (row : RotRow) (col : String) : Bool :=
  row.cells.any (fun c => c.1 == col)

/-- `row[col]` as an optional cell: `none` when the column is missing,
`some none` when present but non-numeric, `some (some n)` when numeric. -/
def rowCell (row : RotRow) (col : String) : Option (Option Int) :=
  (row.cells.find? (fun c => c.1 == col)).map (·.2)

/-- `pd.to_numeric(row[col], errors="coerce")` followed by the
`if pd.notna(...) else 999` defaulting of wrs.py lines 91 to 92. -/
def rankOf (row : RotRow) (col : String) : Int :=
  match rowCell row col with
  | some (some n) => n
  | _ => 999

/-- The structured availability record returned on a hit (wrs.py lines
99 to 104), date fields already formatted with `%d-%m-%Y`. -/
structure Availability where
  startDateStr : String
  endDateStr : String
  groupPriority : Int
  subPriority : Int
deriving DecidableEq, Repr

/-- `get_current_week_water_availability(main_group, sub_group, df)`, with
`datetime.today().date()` made an explicit `today` parameter.  Rows are
scanned in source order; a row is considered only if both the sub-group
and main-group labels are present in its index, and returned if both its
dates are present and its closed interval contains `today`. -/
def get_current_week_water_availability (main_group sub_group : String) (today : Date) :
    List RotRow → Option Availability
  | [] => none
  | row :: rest =>
    if rowHasCol row sub_group && rowHasCol row main_group then
      match row.startDate, row.endDate with
      | some s, some e =>
        if dateLe s today && dateLe today e then
          some ⟨fmtDMY s, fmtDMY e, rankOf row main_group, rankOf row sub_group⟩
        else get_current_week_water_availability main_group sub_group today rest
      | some _, none => get_current_week_water_availability main_group sub_group today rest
      | none, _ => get_current_week_water_availability main_group sub_group today rest
    else get_current_week_water_availability main_group sub_group today rest

/-- A row qualifies for return: both group columns present in its index,
both dates present, and the closed date interval contains `today`. -/
def rowQualifies (main_group sub_group : String) (today : Date) (row : RotRow) : Bool :=
  (rowHasCol row sub_group && rowHasCol row main_group) &&
    match row.startDate, row.endDate with
    | some s, some e => dateLe s today && dateLe today e
    | _, _ => false

/-- The availability record built from a qualifying row. -/
def formatAvail (main_group sub_group : String) (row : RotRow) : Availability :=
  ⟨fmtDMY (row.startDate.getD ⟨0, 0, 0⟩), fmtDMY (row.endDate.getD ⟨0, 0, 0⟩),
   rankOf row main_group, rankOf row sub_group⟩

/-! ## End-to-end orchestration of wrs.py (lines 107 to 178)

The `__main__` block is split into the pure post-load resolution
(`resolve`) and the outermost boundary (`wrsMain`), which receives the
outcome of argument reading and CSV loading as an `Except` value.  Python
truthiness of the optional strings tested by `if main_group and
sub_group:` and `if main_disty:` is modelled by `truthyStr`: `None` and
the empty string are falsy. -/

/-- The six result shapes printed by wrs.py. -/
inductive WrsResult where
  | directHit (canal priority_group sub_group : String) (availability : Availability)
  | directNoData (canal message : String)
  | indirectHit (canal parent_canal priority_group sub_group : String)
      (availability : Availability) (message : String)
  | indirectNoData (canal parent_canal message : String)
  | parentNotInPlan (canal parent_canal message : String)
  | notFound (canal message : String)
deriving DecidableEq, Repr

/-- Python truthiness of an optional string: `None` and `""` are falsy. -/
def truthyStr : Option String → Bool
  | some s => !s.isEmpty
  | none => false

/-- The resolution state machine of wrs.py lines 117 to 172, for an
already stripped canal name.  The result is `none` exactly when
`find_main_disty` runs out of fuel, i.e. when the Python process would
still be looping. -/
def resolve (user_canal : String) (dfH : List HierRow) (dfR : List RotRow)
    (today : Date) (fuel : Nat) : Option WrsResult :=
  let groups := find_priority_group user_canal
  if truthyStr groups.1 && truthyStr groups.2 then
    let mg := groups.1.getD ""
    let sg := groups.2.getD ""
    match get_current_week_water_availability mg sg today dfR with
    | some availability => some (.directHit user_canal mg sg availability)
    | none => some (.directNoData user_canal
        "Canal is in the plan but no availability data for this week.")
  else
    match find_main_disty user_canal dfH fuel with
    | none => none
    | some md =>
      if truthyStr md then
        let main_disty := md.getD ""
        let groups2 := find_priority_group main_disty
        if truthyStr groups2.1 && truthyStr groups2.2 then
          let mg := groups2.1.getD ""
          let sg := groups2.2.getD ""
          match get_current_week_water_availability mg sg today dfR with
          | some availability => some (.indirectHit user_canal main_disty mg sg availability
              "Canal is not directly in the plan, but its parent is.")
          | none => some (.indirectNoData user_canal main_disty
              "No availability data found for the parent distributary in the current week.")
        else some (.parentNotInPlan user_canal main_disty
            "Canal and its parent are not in the rotational plan.")
      else some (.notFound user_canal "No Canal found in the Rabi Season.")

/-- What wrs.py prints: exactly one JSON object, either a result or the
error payload produced by the top-level exception handler. -/
inductive WrsOutput where
  | result (r : WrsResult)
  | errorPayload (error : String)
deriving DecidableEq, Repr

/-- The outermost boundary of wrs.py: argument reading and CSV loading are
abstracted as an `Except` value (the `.error` case standing for any
exception raised while reading or loading); a load failure becomes the
single error payload, otherwise the stripped third argument is resolved. -/
def wrsMain (loaded : Except String (List HierRow × List RotRow))
    (argv_canal : String) (today : Date) (fuel : Nat) : Option WrsOutput :=
  match loaded with
  | .error e => some (.errorPayload e)
  | .ok (dfH, dfR) => (resolve (pyStrip argv_canal) dfH dfR today fuel).map .result

/-- The `"canal"` field present in every result shape. -/
def canalField : WrsResult → String
  | .directHit c _ _ _ => c
  | .directNoData c _ => c
  | .indirectHit c _ _ _ _ _ => c
  | .indirectNoData c _ _ => c
  | .parentNotInPlan c _ _ => c
  | .notFound c _ => c

/-! ## ncd.py: division containment and nearest canals

The shapely and geopandas geometry operations (`contains`, `is_empty`,
`distance`) are external library collaborators; they are abstracted as
function parameters over an arbitrary geometry type, with planar
distances modelled as rational numbers.  Reprojection to EPSG 4326 is
identity on the model (coordinate reference system mechanics are outside
the logic written in the scripts themselves). -/

/-- A shapely point built from the user longitude and latitude. -/
structure Point where
  lon : ℚ
  lat : ℚ
deriving DecidableEq, Repr

/-- A row of the divisions layer: one polygon geometry. -/
structure DivRow (Geom : Type) where
  geometry : Geom

/-- A row of the channel network layer: feature name plus an optional
geometry (`none` models a missing geometry removed by `dropna`). -/
structure NetRow (Geom : Type) where
  CHANNEL_NA : String
  geometry : Option Geom

/-- `check_user_inside_divisions` (ncd.py lines 6 to 28): the per-polygon
containment flags (the `user_inside` column) and their disjunction. -/
def check_user_inside_divisions {Geom : Type} (containsG : Geom → Point → Bool)
    (gdf_div : List (DivRow Geom)) (user_lon user_lat : ℚ) : List Bool × Bool :=
  let user_point : Point := ⟨user_lon, user_lat⟩
  let flags := gdf_div.map (fun r => containsG r.geometry user_point)
  (flags, flags.any id)

/-- The rows surviving the empty-geometry and missing-geometry filters of
ncd.py lines 43 to 44, paired with their distance to the user point. -/
def validPairs {Geom : Type} (isEmptyG : Geom → Bool) (dist : Geom → Point → ℚ)
    (gdf_net : List (NetRow Geom)) (user_point : Point) : List (String × ℚ) :=
  gdf_net.filterMap (fun r =>
    match r.geometry with
    | some g => if isEmptyG g then none else some (r.CHANNEL_NA, dist g user_point)
    | none => none)

/-- Stable ascending sort by distance, the semantics of
`nsmallest(k, "dist_to_user")` with its default first-occurrence
tie-keeping. -/
def sortByDist (l : List (String × ℚ)) : List (String × ℚ) :=
  l.insertionSort (fun a b => a.2 ≤ b.2)

/-- `find_nearest_canals` (ncd.py lines 31 to 52): filter invalid
geometries, rank by planar distance, return the `k` nearest names. -/
def find_nearest_canals {Geom : Type} (isEmptyG : Geom → Bool) (dist : Geom → Point → ℚ)
    (gdf_net : List (NetRow Geom)) (user_lon user_lat : ℚ) (k : Nat) : List String :=
  let user_point : Point := ⟨user_lon, user_lat⟩
  ((sortByDist (validPairs isEmptyG dist gdf_net user_point)).take k).map (·.1)

/-- What ncd.py prints: a list of canal names, the not-in-division
message, or the error payload of the top-level exception handler. -/
inductive NcdOutput where
  | canalList (names : List String)
  | message (text : String)
  | errorPayload (error : String)
deriving DecidableEq, Repr

/-- The outermost boundary of ncd.py (lines 55 to 84): argument reading,
JSON position parsing and shapefile loading are abstracted as an `Except`
value; on success the division test selects between the nearest-canal
list (with `k = 3`) and the not-in-division message. -/
def ncdMain {Geom : Type} (containsG : Geom → Point → Bool) (isEmptyG : Geom → Bool)
    (dist : Geom → Point → ℚ)
    (loaded : Except String (List (DivRow Geom) × List (NetRow Geom) × ℚ × ℚ)) : NcdOutput :=
  match loaded with
  | .error e => .errorPayload e
  | .ok (divs, net, user_lon, user_lat) =>
    if (check_user_inside_divisions containsG divs user_lon user_lat).2 then
      .canalList (find_nearest_canals isEmptyG dist net user_lon user_lat 3)
    else
      .message "You are not in the division"

/-! ## Order instances for the distance ranking relation -/

instance : IsTotal (String × ℚ) (fun a b => a.2 ≤ b.2) :=
  ⟨fun a b => le_total a.2 b.2⟩

instance : IsTrans (String × ℚ) (fun a b => a.2 ≤ b.2) :=
  ⟨fun _ _ _ h1 h2 => le_trans h1 h2⟩

/-! ## Helper lemmas about the dictionary lookups -/

lemma dictGet_mem {m : List (String × String)} {k v : String}
    (h : dictGet m k = some v) : (k, v) ∈ m := by
  obtain ⟨q, hq, hv⟩ := Option.map_eq_some'.mp h
  have hk : q.1 = k := by simpa using List.find?_some hq
  have hm : q ∈ m := List.mem_reverse.mp (List.mem_of_find?_eq_some hq)
  have : q = (k, v) := by
    cases q; simp_all
  exact this ▸ hm

lemma pm_isSome_iff_tm_isSome (df : List HierRow) (x : String) :
    (pm df x).isSome ↔ (tm df x).isSome := by
  simp [pm, tm, dictGet, parentPairs, typePairs, List.find?_isSome]

lemma tm_eq_none_of_pm_eq_none {df : List HierRow} {p : String}
    (h : pm df p = none) : tm df p = none := by
  have h2 := pm_isSome_iff_tm_isSome df p
  rw [h] at h2
  simp only [Option.isSome_none, Bool.false_eq_true, false_iff] at h2
  exact Option.not_isSome_iff_eq_none.mp h2

/-! ## Helper lemmas about the parent chain -/

lemma parentChain_shift (df : List HierRow) {c p : String} (h : pm df c = some p) :
    ∀ j, parentChain df c (j + 1) = parentChain df p j := by
  intro j
  induction j with
  | zero => simp [parentChain, h]
  | succ n ih =>
    show (parentChain df c (n + 1)).bind (pm df) = (parentChain df p n).bind (pm df)
    rw [ih]

lemma parentChain_selfloop (df : List HierRow) {c : String} (h : pm df c = some c) :
    ∀ j, parentChain df c j = some c := by
  intro j
  induction j with
  | zero => rfl
  | succ n ih =>
    show (parentChain df c n).bind (pm df) = some c
    rw [ih]
    simpa using h

lemma parentChain_dangling (df : List HierRow) {c : String} (h : pm df c = none) :
    ∀ j, parentChain df c (j + 1) = none := by
  intro j
  induction j with
  | zero => simp [parentChain, h]
  | succ n ih =>
    show (parentChain df c (n + 1)).bind (pm df) = none
    rw [ih]
    rfl

/-! ## Helper lemmas about the hierarchy walk -/

lemma findDistyLoop_D (df : List HierRow) :
    ∀ (fuel : Nat) (c name : String), findDistyLoop df fuel c = some (some name) →
      tm df name = some "D" := by
  intro fuel
  induction fuel with
  | zero => intro c name h; simp [findDistyLoop] at h
  | succ n ih =>
    intro c name h
    simp only [findDistyLoop] at h
    cases hpm : pm df c <;> simp only [hpm] at h
    · simp at h
    · rename_i p
      by_cases htm : tm df p = some "D"
      · rw [if_pos htm] at h
        simp only [Option.some.injEq] at h
        exact h ▸ htm
      · rw [if_neg htm] at h
        by_cases hstop : p = c ∨ pm df p = none
        · rw [if_pos hstop] at h; simp at h
        · rw [if_neg hstop] at h
          exact ih p name h

lemma findDistyLoop_char (df : List HierRow) :
    ∀ (fuel : Nat) (c : String) (r : Option String), findDistyLoop df fuel c = some r →
      (∀ name, r = some name →
        tm df name = some "D" ∧
        ∃ k, 0 < k ∧ parentChain df c k = some name ∧
          ∀ j x, 0 < j → j < k → parentChain df c j = some x → tm df x ≠ some "D") ∧
      (r = none →
        ∀ j x, 0 < j → parentChain df c j = some x → tm df x ≠ some "D") := by
  intro fuel
  induction fuel with
  | zero => intro c r h; simp [findDistyLoop] at h
  | succ n ih =>
    intro c r h
    simp only [findDistyLoop] at h
    cases hpm : pm df c <;> simp only [hpm] at h
    · -- no parent entry: the loop body never runs
      simp only [Option.some.injEq] at h
      subst h
      refine ⟨fun name hn => by simp at hn, fun _ j x hj hcx => ?_⟩
      obtain ⟨j', rfl⟩ : ∃ j', j = j' + 1 := ⟨j - 1, by omega⟩
      rw [parentChain_dangling df hpm j'] at hcx
      exact absurd hcx (by simp)
    · rename_i p
      by_cases htm : tm df p = some "D"
      · rw [if_pos htm] at h
        simp only [Option.some.injEq] at h
        subst h
        refine ⟨fun name hn => ?_, fun h0 => by simp at h0⟩
        obtain rfl : p = name := by simpa using hn
        refine ⟨htm, 1, Nat.one_pos, by simp [parentChain, hpm], ?_⟩
        intro j x hj hjk
        omega
      · rw [if_neg htm] at h
        by_cases hstop : p = c ∨ pm df p = none
        · rw [if_pos hstop] at h
          simp only [Option.some.injEq] at h
          subst h
          refine ⟨fun name hn => by simp at hn, fun _ j x hj hcx => ?_⟩
          rcases hstop with rfl | hdang
          · -- self-loop on a non-Distributary node
            rw [parentChain_selfloop df hpm j] at hcx
            obtain rfl : p = x := by simpa using hcx
            exact htm
          · -- the parent is not a key of the parent map
            obtain ⟨j', rfl⟩ : ∃ j', j = j' + 1 := ⟨j - 1, by omega⟩
            rw [parentChain_shift df hpm j'] at hcx
            cases j' with
            | zero =>
              obtain rfl : p = x := by simpa [parentChain] using hcx
              exact htm
            | succ j'' =>
              rw [parentChain_dangling df hdang j''] at hcx
              exact absurd hcx (by simp)
        · rw [if_neg hstop] at h
          have hne : p ≠ c := fun hh => hstop (Or.inl hh)
          have IH := ih p r h
          constructor
          · intro name hn
            obtain ⟨hD, k, hk0, hchain, hmin⟩ := IH.1 name hn
            refine ⟨hD, k + 1, by omega, ?_, ?_⟩
            · rw [parentChain_shift df hpm k]; exact hchain
            · intro j x hj hjk hcx
              obtain ⟨j', rfl⟩ : ∃ j', j = j' + 1 := ⟨j - 1, by omega⟩
              rw [parentChain_shift df hpm j'] at hcx
              cases j' with
              | zero =>
                obtain rfl : p = x := by simpa [parentChain] using hcx
                exact htm
              | succ j'' =>
                exact hmin (j'' + 1) x (by omega) (by omega) hcx
          · intro hr0
            have H := IH.2 hr0
            intro j x hj hcx
            obtain ⟨j', rfl⟩ : ∃ j', j = j' + 1 := ⟨j - 1, by omega⟩
            rw [parentChain_shift df hpm j'] at hcx
            cases j' with
            | zero =>
              obtain rfl : p = x := by simpa [parentChain] using hcx
              exact htm
            | succ j'' =>
              exact H (j'' + 1) x (by omega) hcx

lemma findDistyLoop_terminates (df : List HierRow) (rank : String → Nat)
    (hrank : ∀ x p, pm df x = some p → p ≠ x → rank p < rank x) :
    ∀ (fuel : Nat) (c : String), rank c < fuel → (findDistyLoop df fuel c).isSome := by
  intro fuel
  induction fuel with
  | zero => intro c hc; omega
  | succ n ih =>
    intro c hc
    simp only [findDistyLoop]
    cases hpm : pm df c with
    | none => simp
    | some p =>
      by_cases htm : tm df p = some "D"
      · simp [htm]
      · by_cases hstop : p = c ∨ pm df p = none
        · simp [htm, hstop]
        · simp only [htm, hstop, if_false]
          have hne : p ≠ c := fun hh => hstop (Or.inl hh)
          have hlt : rank p < rank c := hrank c p hpm hne
          exact ih p (by omega)

/-! ## Helper lemmas about stripping -/

lemma pyStrip_data (s : String) :
    (pyStrip s).data = List.rdropWhile isPySpace (s.data.dropWhile isPySpace) := rfl

lemma pyStrip_idem (s : String) : pyStrip (pyStrip s) = pyStrip s := by
  apply String.ext
  have hq : List.dropWhile isPySpace (pyStrip s).data = (pyStrip s).data := by
    rw [pyStrip_data, List.dropWhile_eq_self_iff]
    intro hl
    have hpre : List.rdropWhile isPySpace (s.data.dropWhile isPySpace) <+:
        s.data.dropWhile isPySpace := List.rdropWhile_prefix isPySpace _
    have hlen : 0 < (s.data.dropWhile isPySpace).length :=
      lt_of_lt_of_le hl hpre.length_le
    have hget := hpre.getElem hl
    have hnot := List.dropWhile_get_zero_not isPySpace s.data hlen
    simp only [List.get_eq_getElem] at hnot ⊢
    rw [hget]
    exact hnot
  rw [pyStrip_data (pyStrip s), hq, pyStrip_data, List.rdropWhile_idempotent]

/-! ## Helper lemmas about the availability scan -/

lemma getAvail_eq_find (main_group sub_group : String) (today : Date) :
    ∀ df : List RotRow,
      get_current_week_water_availability main_group sub_group today df =
        (df.find? (rowQualifies main_group sub_group today)).map
          (formatAvail main_group sub_group) := by
  intro df
  induction df with
  | nil => rfl
  | cons row rest ih =>
    by_cases hcols : (rowHasCol row sub_group && rowHasCol row main_group) = true
    · cases hs : row.startDate with
      | none =>
        have hq : ¬rowQualifies main_group sub_group today row = true := by
          simp [rowQualifies, hs]
        simp only [get_current_week_water_availability]
        rw [if_pos hcols, List.find?_cons_of_neg _ hq]
        simp only [hs]
        exact ih
      | some s =>
        cases he : row.endDate with
        | none =>
          have hq : ¬rowQualifies main_group sub_group today row = true := by
            simp [rowQualifies, hs, he]
          simp only [get_current_week_water_availability]
          rw [if_pos hcols, List.find?_cons_of_neg _ hq]
          simp only [hs, he]
          exact ih
        | some e =>
          by_cases hd : (dateLe s today && dateLe today e) = true
          · have hq : rowQualifies main_group sub_group today row = true := by
              simp [rowQualifies, hs, he, hcols, hd]
            simp only [get_current_week_water_availability]
            rw [if_pos hcols, List.find?_cons_of_pos _ hq]
            simp only [hs, he]
            rw [if_pos hd]
            simp [formatAvail, hs, he]
          · have hq : ¬rowQualifies main_group sub_group today row = true := by
              simp [rowQualifies, hs, he, hd]
            simp only [get_current_week_water_availability]
            rw [if_pos hcols, List.find?_cons_of_neg _ hq]
            simp only [hs, he]
            rw [if_neg hd]
            exact ih
    · have hq : ¬rowQualifies main_group sub_group today row = true := by
        intro hq'
        simp only [rowQualifies, Bool.and_eq_true] at hq'
        exact hcols (by simp [hq'.1])
      simp only [get_current_week_water_availability]
      rw [if_neg hcols, List.find?_cons_of_neg _ hq]
      exact ih

/-! ## Helper lemma about the resolution state machine -/

lemma resolve_canal (u : String) (dfH : List HierRow) (dfR : List RotRow)
    (today : Date) (fuel : Nat) (r : WrsResult)
    (h : resolve u dfH dfR today fuel = some r) : canalField r = u := by
  simp only [resolve] at h
  by_cases h1 : (truthyStr (find_priority_group u).1 && truthyStr (find_priority_group u).2) = true
  · rw [if_pos h1] at h
    cases hav : get_current_week_water_availability ((find_priority_group u).1.getD "")
        ((find_priority_group u).2.getD "") today dfR <;>
      simp only [hav] at h <;> (cases h; rfl)
  · rw [if_neg h1] at h
    cases hmd : find_main_disty u dfH fuel <;> simp only [hmd] at h
    · exact Option.noConfusion h
    · rename_i md
      by_cases h2 : truthyStr md = true
      · rw [if_pos h2] at h
        by_cases h3 : (truthyStr (find_priority_group (md.getD "")).1 &&
            truthyStr (find_priority_group (md.getD "")).2) = true
        · rw [if_pos h3] at h
          cases hav : get_current_week_water_availability
              ((find_priority_group (md.getD "")).1.getD "")
              ((find_priority_group (md.getD "")).2.getD "") today dfR <;>
            simp only [hav] at h <;> (cases h; rfl)
        · rw [if_neg h3] at h
          cases h
          rfl
      · rw [if_neg h2] at h
        cases h
        rfl

/-! ## Claim C1 -/

/-- Claim C1 (amended).  Whenever `find_main_disty` terminates, it returns
either absent — and then no element of the parent chain of the stripped
canal (positions 1 and up) has channel type Distributary — or the name of
the first parent-chain element (position 1 or later) whose channel type is
Distributary, i.e. the nearest Distributary ancestor under the parent map.
As the counterexample shows, that element can coincide with the canal
itself when the parent links lead back to it, so the claimed exclusion of
the canal itself does not hold. -/
theorem find_main_disty_nearest_ancestor (canal_name : String) (df : List HierRow)
    (fuel : Nat) (r : Option String) (h : find_main_disty canal_name df fuel = some r) :
    (∀ name, r = some name →
      tm df name = some "D" ∧
      ∃ k, 0 < k ∧ parentChain df (pyStrip canal_name) k = some name ∧
        ∀ j x, 0 < j → j < k →
          parentChain df (pyStrip canal_name) j = some x → tm df x ≠ some "D") ∧
    (r = none →
      ∀ j x, 0 < j → parentChain df (pyStrip canal_name) j = some x → tm df x ≠ some "D") :=
  findDistyLoop_char df fuel (pyStrip canal_name) r h

/-- Claim C1 counterexample.  On a hierarchy whose single row makes the
canal its own parent with channel type Distributary, `find_main_disty`
returns the canal itself, not a strict ancestor and not absent. -/
theorem find_main_disty_returns_the_canal_itself :
    find_main_disty "X" [⟨"X", "X", "D"⟩] 1 = some (some "X") ∧ pyStrip "X" = "X" := by
  constructor <;> rfl

theorem find_main_disty_nearest_ancestor_witness :
    tm [⟨"A", "B", "M"⟩, ⟨"B", "C", "M"⟩, ⟨"C", "Root", "D"⟩] "C" = some "D" ∧
    ∃ k, 0 < k ∧
      parentChain [⟨"A", "B", "M"⟩, ⟨"B", "C", "M"⟩, ⟨"C", "Root", "D"⟩]
        (pyStrip "A") k = some "C" ∧
      ∀ j x, 0 < j → j < k →
        parentChain [⟨"A", "B", "M"⟩, ⟨"B", "C", "M"⟩, ⟨"C", "Root", "D"⟩]
          (pyStrip "A") j = some x →
        tm [⟨"A", "B", "M"⟩, ⟨"B", "C", "M"⟩, ⟨"C", "Root", "D"⟩] x ≠ some "D" :=
  (find_main_disty_nearest_ancestor "A"
    [⟨"A", "B", "M"⟩, ⟨"B", "C", "M"⟩, ⟨"C", "Root", "D"⟩] 3 (some "C") (by decide)).1 "C" rfl

/-! ## Claim C2 -/

/-- Claim C2 (amended).  A canal whose parent-map entry is self-referencing
or whose parent is absent from the parent map always terminates the walk
after its first iteration; the result is absent in every such case except
a self-referencing canal whose own channel type is Distributary, where the
walk returns the canal itself. -/
theorem find_main_disty_selfloop_dangling (canal_name : String) (df : List HierRow)
    (fuel : Nat) (hfuel : 0 < fuel) :
    (pm df (pyStrip canal_name) = some (pyStrip canal_name) →
      find_main_disty canal_name df fuel =
        some (if tm df (pyStrip canal_name) = some "D"
          then some (pyStrip canal_name) else none)) ∧
    (∀ p, pm df (pyStrip canal_name) = some p → pm df p = none →
      find_main_disty canal_name df fuel = some none) := by
  obtain ⟨n, rfl⟩ : ∃ n, fuel = n + 1 := ⟨fuel - 1, by omega⟩
  constructor
  · intro h
    simp only [find_main_disty, findDistyLoop, h]
    by_cases htm : tm df (pyStrip canal_name) = some "D"
    · rw [if_pos htm, if_pos htm]
    · rw [if_neg htm, if_neg htm]
      simp
  · intro p h hp
    have htm : tm df p ≠ some "D" := by
      rw [tm_eq_none_of_pm_eq_none hp]
      simp
    simp only [find_main_disty, findDistyLoop, h]
    rw [if_neg htm, if_pos (Or.inr hp)]

/-- Claim C2 counterexample.  A self-referencing entry whose channel type
is Distributary makes `find_main_disty` return the canal, not absent. -/
theorem find_main_disty_selfref_not_absent :
    pm [⟨"X", "X", "D"⟩] "X" = some "X" ∧
    find_main_disty "X" [⟨"X", "X", "D"⟩] 1 = some (some "X") := by
  constructor <;> rfl

theorem find_main_disty_selfloop_dangling_witness :
    find_main_disty "X" [⟨"X", "Y", "M"⟩] 1 = some none :=
  (find_main_disty_selfloop_dangling "X" [⟨"X", "Y", "M"⟩] 1 (by decide)).2
    "Y" (by decide) (by decide)

/-! ## Claim C6 -/

/-- Claim C6.  On a hierarchy whose parent links carry a ranking that
strictly decreases along every non-self parent step (the shape of a table
that is acyclic apart from self-references, with the rank of a canal its
depth), the walk terminates within `depth + 1` loop iterations, ending
either at a Distributary ancestor or with absent. -/
theorem find_main_disty_terminates_within_depth (canal_name : String) (df : List HierRow)
    (rank : String → Nat) (fuel : Nat)
    (hrank : ∀ x p, pm df x = some p → p ≠ x → rank p < rank x)
    (hfuel : rank (pyStrip canal_name) < fuel) :
    ∃ r, find_main_disty canal_name df fuel = some r ∧
      ∀ name, r = some name → tm df name = some "D" := by
  have h := findDistyLoop_terminates df rank hrank fuel (pyStrip canal_name) hfuel
  obtain ⟨r, hr⟩ := Option.isSome_iff_exists.mp h
  exact ⟨r, hr, fun name hn => findDistyLoop_D df fuel (pyStrip canal_name) name (hn ▸ hr)⟩

theorem find_main_disty_terminates_within_depth_witness :
    ∃ r, find_main_disty "A" [⟨"A", "B", "M"⟩, ⟨"B", "C", "M"⟩, ⟨"C", "Root", "D"⟩] 4 = some r ∧
      ∀ name, r = some name →
        tm [⟨"A", "B", "M"⟩, ⟨"B", "C", "M"⟩, ⟨"C", "Root", "D"⟩] name = some "D" := by
  apply find_main_disty_terminates_within_depth "A" _
    (fun s => if s = "A" then 3 else if s = "B" then 2 else if s = "C" then 1 else 0) 4
  · intro x p hx hne
    have hmem : (x, p) ∈ parentPairs [⟨"A", "B", "M"⟩, ⟨"B", "C", "M"⟩, ⟨"C", "Root", "D"⟩] :=
      dictGet_mem hx
    rw [show parentPairs [⟨"A", "B", "M"⟩, ⟨"B", "C", "M"⟩, ⟨"C", "Root", "D"⟩] =
      [("A", "B"), ("B", "C"), ("C", "Root")] from rfl] at hmem
    simp only [List.mem_cons, List.not_mem_nil, or_false, Prod.mk.injEq] at hmem
    rcases hmem with ⟨rfl, rfl⟩ | ⟨rfl, rfl⟩ | ⟨rfl, rfl⟩ <;> decide
  · decide

/-! ## Claim C3 -/

/-- Claim C3 (amended).  The availability lookup returns, for any value of
`today`, the first row in source order whose closed date interval contains
`today` and whose row index contains both the main-group and sub-group
column labels (numeric values are not required: a present but non-numeric
entry is coerced to rank 999 by `rankOf`), formatted with both dates in
day-month-year text plus the two priority ranks; it returns absent exactly
when no such row exists. -/
theorem get_current_week_first_match (main_group sub_group : String) (today : Date)
    (df_rotation : List RotRow) :
    get_current_week_water_availability main_group sub_group today df_rotation =
      (df_rotation.find? (rowQualifies main_group sub_group today)).map
        (formatAvail main_group sub_group) :=
  getAvail_eq_find main_group sub_group today df_rotation

/-- Claim C3 counterexample.  A row inside whose interval `today` falls and
which carries both column labels with non-numeric entries is returned with
999 ranks, whereas the claim demands numeric entries for both columns and
absent otherwise. -/
theorem get_current_week_nonnumeric_row_returned :
    rowCell ⟨some ⟨2025, 1, 1⟩, some ⟨2025, 1, 1⟩, [("A", none), ("A1", none)]⟩ "A" =
      some none ∧
    rowCell ⟨some ⟨2025, 1, 1⟩, some ⟨2025, 1, 1⟩, [("A", none), ("A1", none)]⟩ "A1" =
      some none ∧
    get_current_week_water_availability "A" "A1" ⟨2025, 1, 1⟩
      [⟨some ⟨2025, 1, 1⟩, some ⟨2025, 1, 1⟩, [("A", none), ("A1", none)]⟩] =
      some ⟨"01-01-2025", "01-01-2025", 999, 999⟩ := by
  refine ⟨rfl, rfl, rfl⟩

/-! ## Claim C5 -/

/-- Claim C5.  Rank coercion never fails: a missing or non-numeric cell
yields rank 999, and the ranks inside any returned availability record are
exactly the coerced ranks of some rotation row of the table. -/
theorem rank_coercion_defaults_to_999 :
    (∀ row col, rowCell row col = none ∨ rowCell row col = some none →
      rankOf row col = 999) ∧
    (∀ main_group sub_group today df_rotation a,
      get_current_week_water_availability main_group sub_group today df_rotation = some a →
      ∃ row, row ∈ df_rotation ∧ a.groupPriority = rankOf row main_group ∧
        a.subPriority = rankOf row sub_group) := by
  constructor
  · intro row col h
    rcases h with h | h <;> simp [rankOf, h]
  · intro main_group sub_group today df_rotation a h
    rw [getAvail_eq_find] at h
    obtain ⟨row, hfind, hfmt⟩ := Option.map_eq_some'.mp h
    exact ⟨row, List.mem_of_find?_eq_some hfind, by rw [← hfmt]; rfl, by rw [← hfmt]; rfl⟩

theorem rank_coercion_defaults_to_999_witness :
    rankOf ⟨none, none, [("A", none)]⟩ "A" = 999 :=
  rank_coercion_defaults_to_999.1 ⟨none, none, [("A", none)]⟩ "A" (Or.inr rfl)

/-! ## Claim C4 -/

/-- Claim C4.  Every canal listed under at least one sub-group of the
static mapping is classified by the first matching sub-group in mapping
iteration order together with its enclosing main group (so a canal listed
in exactly one sub-group can never receive a different main group), and
the canal Nal Disty yields priority group A with sub-group A1. -/
theorem find_priority_group_first_listed (canal_name : String)
    (h : ∃ e ∈ CANAL_PRIORITY_MAP, canal_name ∈ e.2) :
    (∃ sub_group canals, firstMatch canal_name = some (sub_group, canals) ∧
      find_priority_group canal_name = (mainOfSub sub_group, some sub_group) ∧
      (mainOfSub sub_group).isSome) ∧
    find_priority_group "Nal Disty" = (some "A", some "A1") := by
  refine ⟨?_, by decide⟩
  obtain ⟨e, he, hc⟩ := h
  rw [show CANAL_PRIORITY_MAP =
    [("A1", ["Chamman Disty", "Nal Disty", "Tarinda Disty", "Channa Minor"]),
     ("A2", ["Upper Wah Faquiran Disty", "Lower Wah Faquiran Disty", "Kacha Disty"]),
     ("B1", ["Azim Disty", "Pattan Munara Minor", "Kandera Disty", "Nal Disty"]),
     ("B2", ["Adam Sohaba Disty", "Talla Disty", "Chamman Disty", "Sianwar Minor"]),
     ("C1", ["Naushera Link Disty", "Naushera Minor", "Bagh Minor", "Malu Minor"]),
     ("C2", ["Manthar Disty", "Lakhi Minor", "Sultan Disty"])] from rfl] at he
  simp only [List.mem_cons, List.not_mem_nil, or_false] at he
  rcases he with rfl | rfl | rfl | rfl | rfl | rfl <;>
    · simp only [List.mem_cons, List.not_mem_nil, or_false] at hc
      rcases hc with rfl | rfl | rfl | rfl <;> exact ⟨_, _, rfl, by decide, by decide⟩

theorem find_priority_group_first_listed_witness :
    find_priority_group "Nal Disty" = (some "A", some "A1") :=
  (find_priority_group_first_listed "Nal Disty"
    ⟨("A1", ["Chamman Disty", "Nal Disty", "Tarinda Disty", "Channa Minor"]),
      by decide, by decide⟩).2

/-! ## Claim C7 -/

/-- Claim C7.  For both scripts, a failure while reading arguments or
loading sources yields exactly the structured error payload carrying the
failure description, and a successful load can never produce an error
payload: the observable output is always exactly one of the two disjoint
shapes, never a mixture. -/
theorem single_error_payload_boundary :
    (∀ e argv_canal today fuel,
      wrsMain (Except.error e) argv_canal today fuel = some (WrsOutput.errorPayload e)) ∧
    (∀ dfH dfR argv_canal today fuel e,
      wrsMain (Except.ok (dfH, dfR)) argv_canal today fuel ≠
        some (WrsOutput.errorPayload e)) ∧
    (∀ (Geom : Type) (containsG : Geom → Point → Bool) (isEmptyG : Geom → Bool)
        (dist : Geom → Point → ℚ) (e : String),
      ncdMain containsG isEmptyG dist (Except.error e) = NcdOutput.errorPayload e) ∧
    (∀ (Geom : Type) (containsG : Geom → Point → Bool) (isEmptyG : Geom → Bool)
        (dist : Geom → Point → ℚ) divs net user_lon user_lat e,
      ncdMain containsG isEmptyG dist (Except.ok (divs, net, user_lon, user_lat)) ≠
        NcdOutput.errorPayload e) := by
  refine ⟨fun e c t f => rfl, ?_, fun Geom cg ig d e => rfl, ?_⟩
  · intro dfH dfR argv_canal today fuel e h
    simp only [wrsMain] at h
    cases hres : resolve (pyStrip argv_canal) dfH dfR today fuel <;>
      rw [hres] at h <;> simp at h
  · intro Geom cg ig d divs net user_lon user_lat e h
    simp only [ncdMain] at h
    by_cases hin : (check_user_inside_divisions cg divs user_lon user_lat).2 = true
    · rw [if_pos hin] at h
      exact NcdOutput.noConfusion h
    · rw [if_neg hin] at h
      exact NcdOutput.noConfusion h

theorem single_error_payload_boundary_witness :
    wrsMain (Except.error "file not found") "Nal Disty" ⟨2025, 1, 1⟩ 1 =
      some (WrsOutput.errorPayload "file not found") ∧
    ncdMain (fun (_ : ℚ) (_ : Point) => true) (fun _ => false) (fun g _ => g)
      (Except.error "bad position") = NcdOutput.errorPayload "bad position" :=
  ⟨single_error_payload_boundary.1 "file not found" "Nal Disty" ⟨2025, 1, 1⟩ 1,
   single_error_payload_boundary.2.2.1 ℚ (fun _ _ => true) (fun _ => false)
     (fun g _ => g) "bad position"⟩

/-! ## Claim C8 -/

/-- Claim C8.  A canal with no direct sub-group assignment and no entry in
the hierarchy parent map resolves end to end, for any fuel covering the
immediate loop exit, to exactly the not-found result carrying the stripped
canal name and the message No Canal found in the Rabi Season. -/
theorem no_canal_found_message (argv_canal : String) (dfH : List HierRow)
    (dfR : List RotRow) (today : Date) (fuel : Nat) (hfuel : 0 < fuel)
    (h1 : find_priority_group (pyStrip argv_canal) = (none, none))
    (h2 : pm dfH (pyStrip argv_canal) = none) :
    wrsMain (Except.ok (dfH, dfR)) argv_canal today fuel =
      some (WrsOutput.result (WrsResult.notFound (pyStrip argv_canal)
        "No Canal found in the Rabi Season.")) := by
  obtain ⟨n, rfl⟩ : ∃ n, fuel = n + 1 := ⟨fuel - 1, by omega⟩
  have hmd : find_main_disty (pyStrip argv_canal) dfH (n + 1) = some none := by
    rw [find_main_disty, pyStrip_idem]
    simp only [findDistyLoop, h2]
  simp only [wrsMain, resolve, h1, hmd, truthyStr]
  simp

theorem no_canal_found_message_witness :
    wrsMain (Except.ok ([], [])) " Ghost Minor " ⟨2025, 1, 1⟩ 1 =
      some (WrsOutput.result (WrsResult.notFound (pyStrip " Ghost Minor ")
        "No Canal found in the Rabi Season.")) :=
  no_canal_found_message " Ghost Minor " [] [] ⟨2025, 1, 1⟩ 1
    (by decide) (by decide) (by decide)

/-! ## Claim C10 -/

/-- Claim C10.  Every non-error output of the priority-resolution script
carries a canal field equal to the input canal name with leading and
trailing whitespace stripped, whatever result shape was produced. -/
theorem result_canal_is_stripped_input (dfH : List HierRow) (dfR : List RotRow)
    (argv_canal : String) (today : Date) (fuel : Nat) (r : WrsResult)
    (h : wrsMain (Except.ok (dfH, dfR)) argv_canal today fuel =
      some (WrsOutput.result r)) :
    canalField r = pyStrip argv_canal := by
  simp only [wrsMain] at h
  cases hres : resolve (pyStrip argv_canal) dfH dfR today fuel <;> rw [hres] at h
  · simp at h
  · rename_i r'
    simp only [Option.map_some', Option.some.injEq, WrsOutput.result.injEq] at h
    exact h ▸ resolve_canal _ dfH dfR today fuel r' hres

theorem result_canal_is_stripped_input_witness :
    canalField (WrsResult.notFound "Ghost Minor" "No Canal found in the Rabi Season.") =
      pyStrip " Ghost Minor " :=
  result_canal_is_stripped_input [] [] " Ghost Minor " ⟨2025, 1, 1⟩ 1
    (WrsResult.notFound "Ghost Minor" "No Canal found in the Rabi Season.") (by decide)

/-! ## Claim C9 -/

/-- Claim C9.  On a successful load, the geo script outputs the names of
the three nearest features by planar distance exactly when the point is
contained in some division polygon, and the not-in-division message
otherwise: the selected list is the three-element prefix of a stable
ascending reordering of the valid feature-distance pairs, every selected
distance being at most every rejected one. -/
theorem geo_nearest_three (Geom : Type) (containsG : Geom → Point → Bool)
    (isEmptyG : Geom → Bool) (dist : Geom → Point → ℚ)
    (divs : List (DivRow Geom)) (net : List (NetRow Geom)) (user_lon user_lat : ℚ) :
    (ncdMain containsG isEmptyG dist (Except.ok (divs, net, user_lon, user_lat)) =
      if (check_user_inside_divisions containsG divs user_lon user_lat).2 then
        NcdOutput.canalList
          (((sortByDist (validPairs isEmptyG dist net ⟨user_lon, user_lat⟩)).take 3).map (·.1))
      else NcdOutput.message "You are not in the division") ∧
    (sortByDist (validPairs isEmptyG dist net ⟨user_lon, user_lat⟩)).Perm
      (validPairs isEmptyG dist net ⟨user_lon, user_lat⟩) ∧
    (∀ a ∈ (sortByDist (validPairs isEmptyG dist net ⟨user_lon, user_lat⟩)).take 3,
      ∀ b ∈ (sortByDist (validPairs isEmptyG dist net ⟨user_lon, user_lat⟩)).drop 3,
        a.2 ≤ b.2) := by
  refine ⟨rfl, List.perm_insertionSort _ _, ?_⟩
  have hs : List.Sorted (fun a b : String × ℚ => a.2 ≤ b.2)
      (sortByDist (validPairs isEmptyG dist net ⟨user_lon, user_lat⟩)) :=
    List.sorted_insertionSort _ _
  have hsplit := List.take_append_drop 3
    (sortByDist (validPairs isEmptyG dist net ⟨user_lon, user_lat⟩))
  rw [← hsplit] at hs
  exact fun a ha b hb => ((List.pairwise_append.mp hs).2.2) a ha b hb

theorem geo_nearest_three_witness :
    ncdMain (fun (_ : ℚ) (_ : Point) => true) (fun _ => false) (fun g _ => g)
      (Except.ok ([⟨0⟩], [⟨"N1", some 3⟩, ⟨"N2", some 1⟩, ⟨"N3", some 2⟩, ⟨"N4", some 5⟩],
        (7 : ℚ), (9 : ℚ))) = NcdOutput.canalList ["N2", "N3", "N1"] ∧
    ((1 : ℚ) ≤ 5) := by
  constructor
  · have h := (geo_nearest_three ℚ (fun _ _ => true) (fun _ => false) (fun g _ => g)
      [⟨0⟩] [⟨"N1", some 3⟩, ⟨"N2", some 1⟩, ⟨"N3", some 2⟩, ⟨"N4", some 5⟩] 7 9).1
    simpa using h
  · exact (geo_nearest_three ℚ (fun _ _ => true) (fun _ => false) (fun g _ => g)
      [⟨0⟩] [⟨"N1", some 3⟩, ⟨"N2", some 1⟩, ⟨"N3", some 2⟩, ⟨"N4", some 5⟩] 7 9).2.2
      ("N2", 1) (by decide) ("N4", 5) (by decide)
